import Mathlib

/-!
# Verification of `oxcable-subtractive-synth` (src/src/lib.rs)

A shallow embedding of the control and signal-routing core of the
polyphonic subtractive synthesizer, together with theorems checking the
natural-language specification against the code.

Conventions of the embedding:
* Audio samples and `f32` parameter values are modelled as exact rationals
  (`ℚ`); no claim under consideration depends on floating-point rounding.
* The DSP units from the external `oxcable` crate (oscillator, ADSR
  envelope, the two filters, tremolo) are black boxes per the spec: their
  parameter state is carried explicitly, their per-sample advance
  functions and the numeric helpers `midi_note_to_freq` /
  `decibel_to_ratio` are abstract parameters bundled in `Sem`.
* The ADSR envelope additionally carries a trace (`log`) of the
  `NoteDown`/`NoteUp` messages it has received, so that "triggers the
  envelope note-up" is observable.
* `oxcable::voice_array::VoiceArray` is not part of this repository's
  sources; it is modelled from the spec (see `VoiceArray` below).
-/

/-- `oxcable::types::Time` (sample counter). -/
abbrev Time := Nat

/-- `oxcable::types::Sample`, modelled as an exact rational. -/
abbrev Sample := ℚ

/-- Opaque payload standing for `oxcable::oscillator::Waveform`. -/
abbrev Waveform := Nat

/-- Opaque payload standing for `oxcable::filters::first_order::FilterMode`. -/
abbrev FirstOrderMode := Nat

/-- Opaque payload standing for `oxcable::filters::second_order::FilterMode`. -/
abbrev SecondOrderMode := Nat

/-- `oxcable::types::MidiMessage`, restricted to the payloads the synth
inspects; `Other` stands for every remaining MIDI message variant, which
the synth routes through its wildcard match arms. -/
inductive MidiMessage where
  | NoteOn (note : Nat) (velocity : ℚ)
  | NoteOff (note : Nat) (velocity : ℚ)
  | SustainPedal (down : Bool)
  | PitchBend (value : ℚ)
  | ControlChange (controller : Nat) (value : Nat)
  | Other (tag : Nat)
deriving Repr

/-- `oxcable::types::MidiEvent`. -/
structure MidiEvent where
  channel : Nat
  time : Time
  payload : MidiMessage
deriving Repr

/-- Parameter state of an `oxcable::oscillator::Oscillator` (the waveform
generation algorithm itself is external). -/
structure Oscillator where
  waveform : Waveform
  freq : ℚ
  transpose : ℚ
  bend : ℚ
  lfo_intensity : ℚ
deriving Repr, DecidableEq

/-- `oxcable::oscillator` messages used by the synth. -/
inductive OscMessage where
  | SetWaveform (w : Waveform)
  | SetFreq (freq : ℚ)
  | SetTranspose (steps : ℚ)
  | SetBend (bend : ℚ)
  | SetLFOIntensity (intensity : ℚ)
deriving Repr

/-- Parameter update of an oscillator: each message sets the field it
names (the `oxcable` unit contract: a typed parameter message takes
effect on the unit's state). -/
def Oscillator.handle_message (o : Oscillator) : OscMessage → Oscillator
  | .SetWaveform w => { o with waveform := w }
  | .SetFreq f => { o with freq := f }
  | .SetTranspose s => { o with transpose := s }
  | .SetBend b => { o with bend := b }
  | .SetLFOIntensity i => { o with lfo_intensity := i }

/-- `Oscillator::new(Sine)`: default parameter state.  The concrete
defaults of the external crate are irrelevant to the claims. -/
def Oscillator.new (w : Waveform) : Oscillator :=
  { waveform := w, freq := 0, transpose := 0, bend := 0, lfo_intensity := 0 }

/-- `oxcable::adsr` messages used by the synth. -/
inductive AdsrMessage where
  | NoteDown
  | NoteUp
  | SetAttack (t : ℚ)
  | SetDecay (t : ℚ)
  | SetSustain (level : ℚ)
  | SetRelease (t : ℚ)
deriving Repr, DecidableEq

/-- Parameter state of an `oxcable::adsr::Adsr` envelope, with a trace
`log` of the note-down/note-up triggers it has received (most recent
first); the envelope curve itself is external. -/
structure Adsr where
  attack : ℚ
  decay : ℚ
  sustain : ℚ
  release : ℚ
  log : List AdsrMessage
deriving Repr, DecidableEq

def Adsr.handle_message (a : Adsr) : AdsrMessage → Adsr
  | .NoteDown => { a with log := .NoteDown :: a.log }
  | .NoteUp => { a with log := .NoteUp :: a.log }
  | .SetAttack t => { a with attack := t }
  | .SetDecay t => { a with decay := t }
  | .SetSustain l => { a with sustain := l }
  | .SetRelease t => { a with release := t }

/-- `Adsr::default(1)`. -/
def Adsr.default : Adsr :=
  { attack := 0, decay := 0, sustain := 0, release := 0, log := [] }

/-- State of `oxcable::filters::first_order::Filter`: its mode plus an
abstract internal (transfer-function) state advanced by the black-box
tick. -/
structure FirstFilter where
  mode : FirstOrderMode
  state : ℚ
deriving Repr, DecidableEq

/-- State of `oxcable::filters::second_order::Filter`. -/
structure SecondFilter where
  mode : SecondOrderMode
  state : ℚ
deriving Repr, DecidableEq

/-- State of `oxcable::tremolo::Tremolo`. -/
structure Tremolo where
  intensity : ℚ
  state : ℚ
deriving Repr, DecidableEq

/-- The black-box semantics of the external `oxcable` collaborators: the
per-sample advance function of each DSP unit and the numeric helpers.
Theorems quantify over this structure, so they hold for every behaviour
of the external units. -/
structure Sem where
  /-- `oxcable::utils::helpers::midi_note_to_freq`. -/
  m2f : Nat → ℚ
  /-- `oxcable::utils::helpers::decibel_to_ratio`. -/
  d2r : ℚ → ℚ
  /-- `Oscillator::tick` for a voice oscillator: time, state, LFO input
  sample ↦ new state, output sample. -/
  oscTick : Time → Oscillator → Sample → Oscillator × Sample
  /-- `Oscillator::tick` for the LFO (no input). -/
  lfoTick : Time → Oscillator → Oscillator × Sample
  /-- `Adsr::tick`: time, state, input sample ↦ new state, output. -/
  adsrTick : Time → Adsr → Sample → Adsr × Sample
  /-- `first_order::Filter::tick`. -/
  firstFilterTick : Time → FirstFilter → Sample → FirstFilter × Sample
  /-- `second_order::Filter::tick`. -/
  secondFilterTick : Time → SecondFilter → Sample → SecondFilter × Sample
  /-- `Tremolo::tick`: time, state, signal input, LFO input ↦ new state,
  output. -/
  tremoloTick : Time → Tremolo → Sample → Sample → Tremolo × Sample

/-- `SubtractiveSynthVoice` (src/src/lib.rs, lines 394-400). -/
structure SubtractiveSynthVoice where
  key_held : Bool
  sustain_held : Bool
  osc1 : Oscillator
  osc2 : Oscillator
  adsr : Adsr
deriving Repr, DecidableEq

/-- `SubtractiveSynthVoice::new` (lib.rs 404-412). -/
def SubtractiveSynthVoice.new : SubtractiveSynthVoice :=
  { key_held := false
    sustain_held := false
    osc1 := Oscillator.new 0
    osc2 := Oscillator.new 0
    adsr := Adsr.default }

/-- `SubtractiveSynthVoice::handle_event` (lib.rs 415-446).  `m2f` is the
external helper `midi_note_to_freq`. -/
def SubtractiveSynthVoice.handle_event (m2f : Nat → ℚ)
    (v : SubtractiveSynthVoice) (event : MidiEvent) : SubtractiveSynthVoice :=
  match event.payload with
  | .NoteOn note _ =>
      let freq := m2f note
      { v with key_held := true
               osc1 := v.osc1.handle_message (.SetFreq freq)
               osc2 := v.osc2.handle_message (.SetFreq freq)
               adsr := v.adsr.handle_message .NoteDown }
  | .NoteOff _ _ =>
      { v with key_held := false
               adsr := if !v.sustain_held
                         then v.adsr.handle_message .NoteUp
                         else v.adsr }
  | .SustainPedal true =>
      { v with sustain_held := true }
  | .SustainPedal false =>
      { v with sustain_held := false
               adsr := if !v.key_held
                         then v.adsr.handle_message .NoteUp
                         else v.adsr }
  | .PitchBend value =>
      let bend := 2 * value
      { v with osc1 := v.osc1.handle_message (.SetBend bend)
               osc2 := v.osc2.handle_message (.SetBend bend) }
  | _ => v

/-- `SubtractiveSynthVoice::tick` (lib.rs 450-458). -/
def SubtractiveSynthVoice.tick (sem : Sem) (t : Time)
    (v : SubtractiveSynthVoice) (lfo : Sample) :
    SubtractiveSynthVoice × Sample :=
  let o1 := sem.oscTick t v.osc1 lfo
  let o2 := sem.oscTick t v.osc2 lfo
  let a := sem.adsrTick t v.adsr ((o1.2 + o2.2) / 2)
  ({ v with osc1 := o1.1, osc2 := o2.1, adsr := a.1 }, a.2)

/-- CLAIM C1 — For every voice: NoteOff sets `key_held := false` and
triggers the envelope's note-up exactly when `sustain_held` is false
(in particular, only if it is false); SustainPedal(false) sets
`sustain_held := false` and triggers note-up exactly when `key_held` is
false; SustainPedal(true) only sets `sustain_held := true`, with no
other effect on the voice (in particular none on the envelope). -/
theorem voice_noteOff_sustainPedal_spec (m2f : Nat → ℚ)
    (v : SubtractiveSynthVoice) (ch : Nat) (t : Time) (note : Nat) (vel : ℚ) :
    (v.handle_event m2f ⟨ch, t, .NoteOff note vel⟩
      = { v with key_held := false
                 adsr := if v.sustain_held then v.adsr
                         else v.adsr.handle_message .NoteUp }) ∧
    (v.handle_event m2f ⟨ch, t, .SustainPedal false⟩
      = { v with sustain_held := false
                 adsr := if v.key_held then v.adsr
                         else v.adsr.handle_message .NoteUp }) ∧
    (v.handle_event m2f ⟨ch, t, .SustainPedal true⟩
      = { v with sustain_held := true }) := by
  refine ⟨?_, ?_, ?_⟩ <;>
    simp only [SubtractiveSynthVoice.handle_event] <;>
    cases hs : v.sustain_held <;> cases hk : v.key_held <;> simp [hs, hk]

/-- Modelled from the spec: `oxcable::voice_array::VoiceArray` is external
to this repository's sources; only its spec-level contract (§4.1 Voice
Pool / Allocator) is available.  `voices` is the fixed pool; `held_notes`
maps each currently-held note number to its voice index (each held note
maps to at most one voice); `queue` orders voice indices by trigger
recency, least-recently-triggered first, realising the documented
least-recently-triggered reuse/steal policy. -/
structure VoiceArray (V : Type) where
  voices : List V
  held_notes : List (Nat × Nat)
  queue : List Nat
deriving Repr

/-- Look up the voice index bound to `note`, if any. -/
def VoiceArray.find_held {V : Type} (va : VoiceArray V) (note : Nat) :
    Option Nat :=
  (va.held_notes.find? (fun p => p.1 == note)).map Prod.snd

/-- A voice index is free when no held note is bound to it. -/
def VoiceArray.is_free {V : Type} (va : VoiceArray V) (i : Nat) : Bool :=
  va.held_notes.all (fun p => p.2 != i)

/-- Modelled from the spec: `VoiceArray::note_on` (§4.1).  If `note` is
already held, its existing voice is returned (re-trigger, no second slot
consumed).  Otherwise the least-recently-triggered free voice is claimed;
if no voice is free, the least-recently-triggered voice is stolen (its
previous binding removed) rather than the event being dropped.  The
chosen index moves to the most-recently-triggered end of the queue.
`none` can only occur for an empty pool. -/
def VoiceArray.note_on {V : Type} (va : VoiceArray V) (note : Nat) :
    Option (Nat × VoiceArray V) :=
  match va.find_held note with
  | some i => some (i, { va with queue := va.queue.erase i ++ [i] })
  | none =>
    match (va.queue.filter (fun i => va.is_free i)).head? with
    | some i =>
        some (i, { va with held_notes := (note, i) :: va.held_notes
                           queue := va.queue.erase i ++ [i] })
    | none =>
      match va.queue.head? with
      | some i =>
          some (i, { va with
                       held_notes :=
                         (note, i) :: va.held_notes.filter (fun p => p.2 != i)
                       queue := va.queue.erase i ++ [i] })
      | none => none

/-- Modelled from the spec: `VoiceArray::note_off` (§4.1).  If `note` is
held, unbinds it and returns its voice index; if not held, returns
nothing and changes nothing (a defined no-op, not an error). -/
def VoiceArray.note_off {V : Type} (va : VoiceArray V) (note : Nat) :
    Option (Nat × VoiceArray V) :=
  match va.find_held note with
  | some i =>
      some (i, { va with held_notes := va.held_notes.filter (fun p => p.1 != note) })
  | none => none

/-- Replace the element at index `i` by `f` of it (used to deliver an
event to the one voice returned by the allocator). -/
def listModify {α : Type} (f : α → α) : Nat → List α → List α
  | _, [] => []
  | 0, a :: as => f a :: as
  | n + 1, a :: as => a :: listModify f n as

/-- Apply `f` to the voice at index `i`. -/
def VoiceArray.modify_voice {V : Type} (va : VoiceArray V) (i : Nat)
    (f : V → V) : VoiceArray V :=
  { va with voices := listModify f i va.voices }

/-- `iter_mut` fan-out: apply `f` to every voice. -/
def VoiceArray.map_voices {V : Type} (va : VoiceArray V) (f : V → V) :
    VoiceArray V :=
  { va with voices := va.voices.map f }

/-- `Message` (lib.rs 82-113): the parameter messages the synth supports. -/
inductive Message where
  | SetGain (db : ℚ)
  | SetOsc1 (w : Waveform)
  | SetOsc2 (w : Waveform)
  | SetOsc1Transpose (steps : ℚ)
  | SetOsc2Transpose (steps : ℚ)
  | SetAttack (t : ℚ)
  | SetDecay (t : ℚ)
  | SetSustain (level : ℚ)
  | SetRelease (t : ℚ)
  | SetLFOFreq (freq : ℚ)
  | SetVibrato (intensity : ℚ)
  | SetTremolo (intensity : ℚ)
  | SetFilterFirstOrder (mode : FirstOrderMode)
  | SetFilterSecondOrder (mode : SecondOrderMode)
  | SendMidiEvent (event : MidiEvent)
deriving Repr

/-- `FilterType` (lib.rs 119). -/
inductive FilterType where
  | FirstOrder
  | SecondOrder
deriving Repr, DecidableEq

/-- `SubtractiveSynth` (lib.rs 122-134).  The MIDI device is external;
its drained events are passed to `tick` as a list.  The control map is an
optional function, as in the source. -/
structure SubtractiveSynth where
  voices : VoiceArray SubtractiveSynthVoice
  controls : Option (Nat → Nat → Option Message)
  gain : ℚ
  lfo : Oscillator
  filter : FilterType
  first_filter : FirstFilter
  second_filter : SecondFilter
  tremolo : Tremolo

/-- `SubtractiveSynth::new` (lib.rs 141-161): `num_voices` fresh voices,
gain `1/num_voices`, first-order filter selected, LFO at 10 Hz. -/
def SubtractiveSynth.new (num_voices : Nat) : SubtractiveSynth :=
  { voices := { voices := List.replicate num_voices SubtractiveSynthVoice.new
                held_notes := []
                queue := List.range num_voices }
    controls := none
    gain := 1 / (num_voices : ℚ)
    lfo := { Oscillator.new 0 with freq := 10 }
    filter := FilterType.FirstOrder
    first_filter := { mode := 0, state := 0 }
    second_filter := { mode := 0, state := 0 }
    tremolo := { intensity := 0, state := 0 } }

/-- Body of `SubtractiveSynth::handle_message` (lib.rs 282-353), with the
one recursive call (`SendMidiEvent` forwarding to `handle_event`,
lib.rs 349-351) abstracted as `he`. -/
def SubtractiveSynth.handle_message_core (sem : Sem)
    (he : SubtractiveSynth → MidiEvent → SubtractiveSynth)
    (s : SubtractiveSynth) (msg : Message) : SubtractiveSynth :=
  match msg with
  | .SetGain gain => { s with gain := sem.d2r gain }
  | .SetOsc1 w =>
      { s with voices := s.voices.map_voices (fun v =>
          { v with osc1 := v.osc1.handle_message (.SetWaveform w) }) }
  | .SetOsc2 w =>
      { s with voices := s.voices.map_voices (fun v =>
          { v with osc2 := v.osc2.handle_message (.SetWaveform w) }) }
  | .SetOsc1Transpose steps =>
      { s with voices := s.voices.map_voices (fun v =>
          { v with osc1 := v.osc1.handle_message (.SetTranspose steps) }) }
  | .SetOsc2Transpose steps =>
      { s with voices := s.voices.map_voices (fun v =>
          { v with osc2 := v.osc2.handle_message (.SetTranspose steps) }) }
  | .SetAttack t =>
      { s with voices := s.voices.map_voices (fun v =>
          { v with adsr := v.adsr.handle_message (.SetAttack t) }) }
  | .SetDecay t =>
      { s with voices := s.voices.map_voices (fun v =>
          { v with adsr := v.adsr.handle_message (.SetDecay t) }) }
  | .SetSustain level =>
      { s with voices := s.voices.map_voices (fun v =>
          { v with adsr := v.adsr.handle_message (.SetSustain level) }) }
  | .SetRelease t =>
      { s with voices := s.voices.map_voices (fun v =>
          { v with adsr := v.adsr.handle_message (.SetRelease t) }) }
  | .SetLFOFreq freq =>
      { s with lfo := s.lfo.handle_message (.SetFreq freq) }
  | .SetVibrato intensity =>
      { s with voices := s.voices.map_voices (fun v =>
          { v with osc1 := v.osc1.handle_message (.SetLFOIntensity intensity)
                   osc2 := v.osc2.handle_message (.SetLFOIntensity intensity) }) }
  | .SetTremolo intensity =>
      { s with tremolo := { s.tremolo with intensity := intensity } }
  | .SetFilterFirstOrder mode =>
      { s with filter := FilterType.FirstOrder
               first_filter := { s.first_filter with mode := mode } }
  | .SetFilterSecondOrder mode =>
      { s with filter := FilterType.SecondOrder
               second_filter := { s.second_filter with mode := mode } }
  | .SendMidiEvent event => he s event

/-- Body of `SubtractiveSynth::handle_event` (lib.rs 256-277), with the
one recursive call (a mapped `ControlChange` applied through
`handle_message`, lib.rs 264-270) abstracted as `hm`. -/
def SubtractiveSynth.handle_event_core (sem : Sem)
    (hm : SubtractiveSynth → Message → SubtractiveSynth)
    (s : SubtractiveSynth) (event : MidiEvent) : SubtractiveSynth :=
  match event.payload with
  | .NoteOn note _ =>
      match s.voices.note_on note with
      | some (i, va) =>
          { s with voices :=
              va.modify_voice i (fun v => v.handle_event sem.m2f event) }
      | none => s
  | .NoteOff note _ =>
      match s.voices.note_off note with
      | some (i, va) =>
          { s with voices :=
              va.modify_voice i (fun v => v.handle_event sem.m2f event) }
      | none => s
  | .ControlChange controller value =>
      match s.controls with
      | some f =>
          match f controller value with
          | some m => hm s m
          | none => s
      | none => s
  | _ =>
      { s with voices :=
          s.voices.map_voices (fun v => v.handle_event sem.m2f event) }

/-- `SubtractiveSynth::handle_message` (lib.rs 282-353).  `fuel` bounds
the depth of the `SendMidiEvent → ControlChange → handle_message`
indirection (the Rust source recurses unboundedly if a control map
produces such a cycle); when fuel runs out the remaining `SendMidiEvent`
indirection is dropped. -/
def SubtractiveSynth.handle_message (sem : Sem) :
    Nat → SubtractiveSynth → Message → SubtractiveSynth
  | 0, s, msg =>
      SubtractiveSynth.handle_message_core sem (fun s _ => s) s msg
  | n + 1, s, msg =>
      SubtractiveSynth.handle_message_core sem
        (fun s e => SubtractiveSynth.handle_event_core sem
          (SubtractiveSynth.handle_message sem n) s e) s msg

/-- `SubtractiveSynth::handle_event` (lib.rs 256-277). -/
def SubtractiveSynth.handle_event (sem : Sem) (fuel : Nat)
    (s : SubtractiveSynth) (event : MidiEvent) : SubtractiveSynth :=
  SubtractiveSynth.handle_event_core sem
    (SubtractiveSynth.handle_message sem fuel) s event

/-- `SubtractiveSynth::tick` (lib.rs 365-389).  `events` is the list the
external MIDI device yields for timestamp `t` (`midi.get_events(t)`). -/
def SubtractiveSynth.tick (sem : Sem) (fuel : Nat) (events : List MidiEvent)
    (t : Time) (s : SubtractiveSynth) : SubtractiveSynth × Sample :=
  let s := events.foldl (fun s e => SubtractiveSynth.handle_event sem fuel s e) s
  let lfo := sem.lfoTick t s.lfo
  let ticked := s.voices.voices.map (fun v => v.tick sem t lfo.2)
  let voice_out := (ticked.map Prod.snd).sum
  let ff := sem.firstFilterTick t s.first_filter voice_out
  let sf := sem.secondFilterTick t s.second_filter voice_out
  let trem_in := match s.filter with
    | .FirstOrder => ff.2
    | .SecondOrder => sf.2
  let trem := sem.tremoloTick t s.tremolo trem_in lfo.2
  ({ s with voices := { s.voices with voices := ticked.map Prod.fst }
            lfo := lfo.1
            first_filter := ff.1
            second_filter := sf.1
            tremolo := trem.1 },
   s.gain * trem.2)

/-- Observation: the LFO output sample of the current tick. -/
def SubtractiveSynth.lfo_out (sem : Sem) (t : Time) (s : SubtractiveSynth) :
    Sample :=
  (sem.lfoTick t s.lfo).2

/-- Observation: the accumulated (unscaled) sum of all voice outputs of
the current tick (`voice_out` in lib.rs 371-374). -/
def SubtractiveSynth.voice_out_sum (sem : Sem) (t : Time)
    (s : SubtractiveSynth) : Sample :=
  ((s.voices.voices.map (fun v => v.tick sem t (s.lfo_out sem t))).map
    Prod.snd).sum

/-- Observation: the output of the currently selected filter, fed with
the summed voice output (lib.rs 376-384). -/
def SubtractiveSynth.selected_filter_out (sem : Sem) (t : Time)
    (s : SubtractiveSynth) : Sample :=
  match s.filter with
  | .FirstOrder => (sem.firstFilterTick t s.first_filter (s.voice_out_sum sem t)).2
  | .SecondOrder => (sem.secondFilterTick t s.second_filter (s.voice_out_sum sem t)).2

/-- Observation: the tremolo stage's output for the current tick
(lib.rs 381-386): it consumes the selected filter's output and the LFO
sample. -/
def SubtractiveSynth.tremolo_out (sem : Sem) (t : Time)
    (s : SubtractiveSynth) : Sample :=
  (sem.tremoloTick t s.tremolo (s.selected_filter_out sem t) (s.lfo_out sem t)).2

/-- CLAIM C3 (amended) — On every tick, the emitted sample is the stored
master gain times the tremolo stage's output (which processes the
summed, otherwise unscaled voice outputs through the selected filter).
The gain is a single stored linear factor: initialized to `1/N` at
construction and overwritten with `decibel_to_ratio(g)` when `SetGain(g)`
is handled — the decibel conversion happens once at message time, and a
tick never recomputes or alters the stored gain. -/
theorem tick_output_is_gain_times_postchain (sem : Sem) (fuel : Nat)
    (t : Time) (s : SubtractiveSynth) (g : ℚ) (n : Nat) :
    (SubtractiveSynth.tick sem fuel [] t s).2 = s.gain * s.tremolo_out sem t ∧
    (SubtractiveSynth.tick sem fuel [] t s).1.gain = s.gain ∧
    (SubtractiveSynth.handle_message sem fuel s (.SetGain g)).gain = sem.d2r g ∧
    (SubtractiveSynth.new n).gain = 1 / (n : ℚ) := by
  refine ⟨?_, rfl, ?_, rfl⟩
  · cases hf : s.filter <;>
      simp [SubtractiveSynth.tick, SubtractiveSynth.tremolo_out,
        SubtractiveSynth.selected_filter_out, SubtractiveSynth.voice_out_sum,
        SubtractiveSynth.lfo_out, hf]
  · cases fuel <;> rfl

/-- Concrete instantiation of the black-box collaborators used by
counterexamples and witnesses: every oscillator outputs `1`, the
envelope, the filters and the tremolo pass their input through, the LFO
outputs `0`. -/
def semConst : Sem :=
  { m2f := fun _ => 440
    d2r := fun db => db
    oscTick := fun _ o _ => (o, 1)
    lfoTick := fun _ o => (o, 0)
    adsrTick := fun _ a x => (a, x)
    firstFilterTick := fun _ f x => (f, x)
    secondFilterTick := fun _ f x => (f, x)
    tremoloTick := fun _ tr x _ => (tr, x) }

/-- A fresh two-voice synth. -/
def synth2 : SubtractiveSynth := SubtractiveSynth.new 2

/-- CLAIM C3 (counterexample) — The claim as stated says the emitted
sample equals the voice-output sum scaled by `1/N` and then multiplied by
the stored master gain.  On a fresh two-voice synth with pass-through
collaborators the tick emits `gain * sum = (1/2) * 2 = 1`, while the
claimed formula gives `(sum / N) * gain = (2/2) * (1/2) = 1/2`: the code
applies the stored gain as the only scale factor (the `1/N` is merely its
initial value, gone after any `SetGain`), so the claimed double scaling
does not hold. -/
theorem tick_output_claimed_formula_cex :
    (SubtractiveSynth.tick semConst 0 [] 0 synth2).2 ≠
      synth2.voice_out_sum semConst 0 / (synth2.voices.voices.length : ℚ)
        * synth2.gain := by
  simp [SubtractiveSynth.tick, SubtractiveSynth.voice_out_sum,
    SubtractiveSynth.lfo_out, synth2, SubtractiveSynth.new, semConst,
    SubtractiveSynthVoice.tick]

/-- CLAIM C4 — On every tick both filter instances advance on the same
summed voice input, regardless of which filter is selected; the tremolo
stage consumes the output of the selected filter (and the LFO sample);
and after `SetFilterFirstOrder`/`SetFilterSecondOrder` the selected
output — hence the sample reaching the tremolo on the very next tick —
is the newly selected filter's. -/
theorem filters_always_advance_and_selection_switches (sem : Sem)
    (fuel : Nat) (t : Time) (s : SubtractiveSynth)
    (m₁ : FirstOrderMode) (m₂ : SecondOrderMode) :
    (SubtractiveSynth.tick sem fuel [] t s).1.first_filter
      = (sem.firstFilterTick t s.first_filter (s.voice_out_sum sem t)).1 ∧
    (SubtractiveSynth.tick sem fuel [] t s).1.second_filter
      = (sem.secondFilterTick t s.second_filter (s.voice_out_sum sem t)).1 ∧
    (SubtractiveSynth.tick sem fuel [] t s).1.tremolo
      = (sem.tremoloTick t s.tremolo (s.selected_filter_out sem t)
          (s.lfo_out sem t)).1 ∧
    ((SubtractiveSynth.handle_message sem fuel s
        (.SetFilterFirstOrder m₁)).selected_filter_out sem t
      = (sem.firstFilterTick t
          (SubtractiveSynth.handle_message sem fuel s
            (.SetFilterFirstOrder m₁)).first_filter
          ((SubtractiveSynth.handle_message sem fuel s
            (.SetFilterFirstOrder m₁)).voice_out_sum sem t)).2) ∧
    ((SubtractiveSynth.handle_message sem fuel s
        (.SetFilterSecondOrder m₂)).selected_filter_out sem t
      = (sem.secondFilterTick t
          (SubtractiveSynth.handle_message sem fuel s
            (.SetFilterSecondOrder m₂)).second_filter
          ((SubtractiveSynth.handle_message sem fuel s
            (.SetFilterSecondOrder m₂)).voice_out_sum sem t)).2) := by
  refine ⟨?_, ?_, ?_, ?_, ?_⟩
  · cases hf : s.filter <;>
      simp [SubtractiveSynth.tick, SubtractiveSynth.voice_out_sum,
        SubtractiveSynth.lfo_out, hf]
  · cases hf : s.filter <;>
      simp [SubtractiveSynth.tick, SubtractiveSynth.voice_out_sum,
        SubtractiveSynth.lfo_out, hf]
  · cases hf : s.filter <;>
      simp [SubtractiveSynth.tick, SubtractiveSynth.selected_filter_out,
        SubtractiveSynth.voice_out_sum, SubtractiveSynth.lfo_out, hf]
  · cases fuel <;> rfl
  · cases fuel <;> rfl

/-- CLAIM C7 — `SetFilterFirstOrder(mode)` both selects the first-order
filter AND sets its mode in the same call, changing nothing else;
likewise `SetFilterSecondOrder(mode)` for the second-order filter. -/
theorem set_filter_couples_selection_and_mode (sem : Sem) (fuel : Nat)
    (s : SubtractiveSynth) (m₁ : FirstOrderMode) (m₂ : SecondOrderMode) :
    SubtractiveSynth.handle_message sem fuel s (.SetFilterFirstOrder m₁)
      = { s with filter := FilterType.FirstOrder
                 first_filter := { s.first_filter with mode := m₁ } } ∧
    SubtractiveSynth.handle_message sem fuel s (.SetFilterSecondOrder m₂)
      = { s with filter := FilterType.SecondOrder
                 second_filter := { s.second_filter with mode := m₂ } } := by
  cases fuel <;> exact ⟨rfl, rfl⟩

/-- CLAIM C6 — A ControlChange event with no configured mapping, or whose
mapping yields `None`, changes nothing (silent no-op); if the mapping
yields `Some(msg)`, that message is applied immediately, within the same
event dispatch. -/
theorem control_change_mapping_spec (sem : Sem) (fuel : Nat)
    (s : SubtractiveSynth) (c v ch : Nat) (t : Time) :
    (s.controls = none →
      SubtractiveSynth.handle_event sem fuel s ⟨ch, t, .ControlChange c v⟩ = s) ∧
    (∀ f, s.controls = some f → f c v = none →
      SubtractiveSynth.handle_event sem fuel s ⟨ch, t, .ControlChange c v⟩ = s) ∧
    (∀ f m, s.controls = some f → f c v = some m →
      SubtractiveSynth.handle_event sem fuel s ⟨ch, t, .ControlChange c v⟩
        = SubtractiveSynth.handle_message sem fuel s m) := by
  refine ⟨fun h => ?_, fun f hf hn => ?_, fun f m hf hm => ?_⟩
  · simp [SubtractiveSynth.handle_event, SubtractiveSynth.handle_event_core, h]
  · simp [SubtractiveSynth.handle_event, SubtractiveSynth.handle_event_core,
      hf, hn]
  · simp [SubtractiveSynth.handle_event, SubtractiveSynth.handle_event_core,
      hf, hm]

/-- A concrete control map used by witnesses: controller 1 sets the gain
to 3 dB, everything else is unmapped. -/
def ctrlMap1 : Nat → Nat → Option Message :=
  fun c _ => if c = 1 then some (.SetGain 3) else none

/-- A two-voice synth with `ctrlMap1` installed. -/
def synthCtrl : SubtractiveSynth :=
  { SubtractiveSynth.new 2 with controls := some ctrlMap1 }

/-- Witness for `control_change_mapping_spec` at concrete inputs: no map
(`synth2`), an unmapped controller, and a mapped controller. -/
theorem control_change_mapping_spec_witness :
    (SubtractiveSynth.handle_event semConst 0 synth2
        ⟨0, 0, .ControlChange 1 5⟩ = synth2) ∧
    (SubtractiveSynth.handle_event semConst 0 synthCtrl
        ⟨0, 0, .ControlChange 0 5⟩ = synthCtrl) ∧
    (SubtractiveSynth.handle_event semConst 0 synthCtrl
        ⟨0, 0, .ControlChange 1 5⟩
      = SubtractiveSynth.handle_message semConst 0 synthCtrl (.SetGain 3)) :=
  ⟨(control_change_mapping_spec semConst 0 synth2 1 5 0 0).1 rfl,
   (control_change_mapping_spec semConst 0 synthCtrl 0 5 0 0).2.1
     ctrlMap1 rfl rfl,
   (control_change_mapping_spec semConst 0 synthCtrl 1 5 0 0).2.2
     ctrlMap1 (.SetGain 3) rfl rfl⟩

/-- CLAIM C8 (counterexample) — The claim says each voice forwards the
pitch-bend amount UNSCALED to its tone generators.  At bend value `1`
the code (lib.rs 439-443) computes `bend = 2.0 * value` and forwards
`2`, not `1`, so the forwarded amount is scaled. -/
theorem pitch_bend_unscaled_cex :
    (SubtractiveSynthVoice.new.handle_event (fun _ => 440)
        ⟨0, 0, .PitchBend 1⟩).osc1.bend ≠ 1 := by
  simp [SubtractiveSynthVoice.handle_event, SubtractiveSynthVoice.new,
    Oscillator.handle_message, Oscillator.new]

/-- CLAIM C8 (amended) — Every PitchBend event is broadcast to every
voice in the pool, and each voice forwards `2.0 * value` — the same,
consistently scaled amount — to both of its tone generators, so within
each voice both oscillators receive the identical bend value. -/
theorem pitch_bend_broadcast_doubled (sem : Sem) (fuel : Nat)
    (s : SubtractiveSynth) (value : ℚ) (ch : Nat) (t : Time) :
    (SubtractiveSynth.handle_event sem fuel s
        ⟨ch, t, .PitchBend value⟩).voices.voices
      = s.voices.voices.map
          (fun v => v.handle_event sem.m2f ⟨ch, t, .PitchBend value⟩) ∧
    (∀ v : SubtractiveSynthVoice,
      v.handle_event sem.m2f ⟨ch, t, .PitchBend value⟩
        = { v with osc1 := { v.osc1 with bend := 2 * value }
                   osc2 := { v.osc2 with bend := 2 * value } }) :=
  ⟨rfl, fun _ => rfl⟩

/-- CLAIM C9 — `SustainPedal(false)` is broadcast to every voice in the
pool, so every voice whose `key_held` flag is false — including voices
that were never bound to a note or finished releasing long ago —
receives an envelope note-up; only voices with `key_held = true` are
spared. -/
theorem sustain_pedal_release_broadcast (sem : Sem) (fuel : Nat)
    (s : SubtractiveSynth) (ch : Nat) (t : Time) :
    (SubtractiveSynth.handle_event sem fuel s
        ⟨ch, t, .SustainPedal false⟩).voices.voices
      = s.voices.voices.map (fun v =>
          { v with sustain_held := false
                   adsr := if v.key_held then v.adsr
                           else v.adsr.handle_message .NoteUp }) := by
  show s.voices.voices.map _ = _
  apply List.map_congr_left
  intro v _
  cases hk : v.key_held <;>
    simp [SubtractiveSynthVoice.handle_event, hk]

/-- If `find_held` reports voice `i` for `note`, the pair `(note, i)` is
a binding of the pool. -/
theorem find_held_mem {V : Type} (va : VoiceArray V) (note i : Nat)
    (h : va.find_held note = some i) : (note, i) ∈ va.held_notes := by
  unfold VoiceArray.find_held at h
  cases hf : va.held_notes.find? (fun p => p.1 == note) with
  | none => rw [hf] at h; simp at h
  | some p =>
    rw [hf] at h
    simp at h
    have hp := List.find?_some hf
    have hmem := List.mem_of_find?_eq_some hf
    simp at hp
    have : p = (note, i) := by
      obtain ⟨p1, p2⟩ := p
      simp_all
    rwa [this] at hmem

/-- `listModify` leaves every other index unchanged. -/
theorem listModify_getElem_ne {α : Type} (f : α → α) :
    ∀ (i j : Nat) (l : List α), j ≠ i → (listModify f i l)[j]? = l[j]? := by
  intro i j l
  induction l generalizing i j with
  | nil => simp [listModify]
  | cons a as ih =>
    intro h
    cases i with
    | zero =>
      cases j with
      | zero => omega
      | succ j => simp [listModify]
    | succ i =>
      cases j with
      | zero => simp [listModify]
      | succ j => simpa [listModify] using ih i j (by omega)

/-- CLAIM C2 — Dispatching NoteOn always yields a voice that then
receives the event: `note_on` cannot fail on a nonempty pool; if the
note is already held the same voice is returned and no second pool slot
is consumed (bindings unchanged); and when every voice is in use an
existing voice is reclaimed (the returned index already carries a
binding) rather than the event being dropped.  The hypotheses say the
recency queue is a permutation of the pool's indices (the allocator's
structural invariant) and the pool is nonempty. -/
theorem note_on_spec (va : VoiceArray SubtractiveSynthVoice) (note : Nat)
    (hq : va.queue.Perm (List.range va.voices.length))
    (hN : 0 < va.voices.length) :
    (∃ i va', va.note_on note = some (i, va')) ∧
    (∀ i, va.find_held note = some i →
      ∃ va', va.note_on note = some (i, va') ∧
        va'.held_notes = va.held_notes ∧ va'.voices = va.voices) ∧
    ((∀ j, j < va.voices.length → va.is_free j = false) →
      ∀ i va', va.note_on note = some (i, va') →
        ∃ n', (n', i) ∈ va.held_notes) ∧
    (∀ (sem : Sem) (fuel : Nat) (s : SubtractiveSynth) (ch : Nat) (t : Time)
        (vel : ℚ) (i : Nat) (va' : VoiceArray SubtractiveSynthVoice),
      s.voices = va → va.note_on note = some (i, va') →
      SubtractiveSynth.handle_event sem fuel s ⟨ch, t, .NoteOn note vel⟩
        = { s with voices := (va'.modify_voice i
              (fun v => v.handle_event sem.m2f ⟨ch, t, .NoteOn note vel⟩)) }) := by
  have hqlen : va.queue.length = va.voices.length := by
    simpa using hq.length_eq
  have hqne : va.queue ≠ [] := by
    intro h
    rw [h] at hqlen
    simp at hqlen
    omega
  refine ⟨?_, ?_, ?_, ?_⟩
  · unfold VoiceArray.note_on
    cases h1 : va.find_held note with
    | some i => exact ⟨i, _, rfl⟩
    | none =>
      cases h2 : (va.queue.filter (fun i => va.is_free i)).head? with
      | some i => exact ⟨i, _, rfl⟩
      | none =>
        cases h3 : va.queue.head? with
        | some i => exact ⟨i, _, rfl⟩
        | none => exact absurd (List.head?_eq_none_iff.mp h3) hqne
  · intro i hi
    exact ⟨{ va with queue := va.queue.erase i ++ [i] },
      by simp [VoiceArray.note_on, hi], rfl, rfl⟩
  · intro hfree i va' hon
    cases h1 : va.find_held note with
    | some j =>
      simp [VoiceArray.note_on, h1] at hon
      exact ⟨note, hon.1 ▸ find_held_mem va note j h1⟩
    | none =>
      have hfilter : va.queue.filter (fun i => va.is_free i) = [] := by
        rw [List.filter_eq_nil_iff]
        intro a ha
        have haN : a < va.voices.length := by
          have := hq.mem_iff.mp ha
          simpa using this
        simp [hfree a haN]
      rw [VoiceArray.note_on, h1, hfilter] at hon
      cases hqq : va.queue with
      | nil => exact absurd hqq hqne
      | cons a rest =>
        rw [hqq] at hon
        simp at hon
        have haq : a ∈ va.queue := by rw [hqq]; exact List.mem_cons_self a rest
        have haN : a < va.voices.length := by
          have := hq.mem_iff.mp haq
          simpa using this
        have hfa := hfree a haN
        unfold VoiceArray.is_free at hfa
        rw [List.all_eq_false] at hfa
        obtain ⟨p, hp, hpa⟩ := hfa
        simp at hpa
        refine ⟨p.1, ?_⟩
        have : p = (p.1, i) := by
          obtain ⟨p1, p2⟩ := p
          simp_all
        rwa [this] at hp
  · intro sem fuel s ch t vel i va' hs hon
    subst hs
    simp [SubtractiveSynth.handle_event, SubtractiveSynth.handle_event_core, hon]

/-- CLAIM C5 — A NoteOff for a note that is not held is a defined
no-op: the synth (hence every voice) is left exactly as it was, and no
error arises (the handler is total).  If the note is held, exactly the
voice it was bound to receives the NoteOff event — every other voice
slot is untouched. -/
theorem note_off_spec (sem : Sem) (fuel : Nat) (s : SubtractiveSynth)
    (note : Nat) (vel : ℚ) (ch : Nat) (t : Time) :
    (s.voices.find_held note = none →
      SubtractiveSynth.handle_event sem fuel s ⟨ch, t, .NoteOff note vel⟩ = s) ∧
    (∀ i, s.voices.find_held note = some i →
      (SubtractiveSynth.handle_event sem fuel s ⟨ch, t, .NoteOff note vel⟩
        = { s with voices := (({ s.voices with
              held_notes := s.voices.held_notes.filter
                (fun p => p.1 != note) }).modify_voice i
              (fun v => v.handle_event sem.m2f ⟨ch, t, .NoteOff note vel⟩)) }) ∧
      (∀ j, j ≠ i →
        (SubtractiveSynth.handle_event sem fuel s
            ⟨ch, t, .NoteOff note vel⟩).voices.voices[j]?
          = s.voices.voices[j]?)) := by
  constructor
  · intro h
    simp [SubtractiveSynth.handle_event, SubtractiveSynth.handle_event_core,
      VoiceArray.note_off, h]
  · intro i hi
    constructor
    · simp [SubtractiveSynth.handle_event, SubtractiveSynth.handle_event_core,
        VoiceArray.note_off, hi]
    · intro j hj
      simp only [SubtractiveSynth.handle_event, SubtractiveSynth.handle_event_core,
        VoiceArray.note_off, hi]
      exact listModify_getElem_ne _ i j _ hj

/-- Witness for `note_on_spec`: on a fresh two-voice synth's pool,
NoteOn(60) yields a voice. -/
theorem note_on_spec_witness :
    ∃ i va', ((SubtractiveSynth.new 2).voices).note_on 60 = some (i, va') :=
  (note_on_spec (SubtractiveSynth.new 2).voices 60
    (List.Perm.refl _) (by decide)).1

/-- A two-voice synth currently holding note 60 on voice 0. -/
def synthHeld : SubtractiveSynth :=
  { SubtractiveSynth.new 2 with
      voices := { (SubtractiveSynth.new 2).voices with
                    held_notes := [(60, 0)] } }

/-- Witness for `note_off_spec`: a stray NoteOff on a fresh synth is a
no-op, and on a synth holding note 60 at voice 0, NoteOff(60) leaves
voice 1 untouched. -/
theorem note_off_spec_witness :
    (SubtractiveSynth.handle_event semConst 0 synth2
        ⟨0, 0, .NoteOff 60 1⟩ = synth2) ∧
    ((SubtractiveSynth.handle_event semConst 0 synthHeld
        ⟨0, 0, .NoteOff 60 1⟩).voices.voices[1]?
      = synthHeld.voices.voices[1]?) :=
  ⟨(note_off_spec semConst 0 synth2 60 1 0 0).1 rfl,
   ((note_off_spec semConst 0 synthHeld 60 1 0 0).2 0 rfl).2 1 (by decide)⟩

/-- The voice-level configuration targeted by parameter fan-out
messages: oscillator waveforms, transposes and vibrato (LFO) intensities,
and the ADSR envelope parameters.  Per-voice frequency, bend, hold flags
and the envelope trigger log are deliberately NOT part of it. -/
structure VoiceSettings where
  osc1_waveform : Waveform
  osc1_transpose : ℚ
  osc1_lfo_intensity : ℚ
  osc2_waveform : Waveform
  osc2_transpose : ℚ
  osc2_lfo_intensity : ℚ
  attack : ℚ
  decay : ℚ
  sustain : ℚ
  release : ℚ
deriving Repr, DecidableEq

/-- Read a voice's settings. -/
def SubtractiveSynthVoice.settings (v : SubtractiveSynthVoice) :
    VoiceSettings :=
  { osc1_waveform := v.osc1.waveform
    osc1_transpose := v.osc1.transpose
    osc1_lfo_intensity := v.osc1.lfo_intensity
    osc2_waveform := v.osc2.waveform
    osc2_transpose := v.osc2.transpose
    osc2_lfo_intensity := v.osc2.lfo_intensity
    attack := v.adsr.attack
    decay := v.adsr.decay
    sustain := v.adsr.sustain
    release := v.adsr.release }

/-- All voices in a list share identical settings. -/
@[reducible] def settings_uniform (l : List SubtractiveSynthVoice) : Prop :=
  ∀ v ∈ l, ∀ w ∈ l, v.settings = w.settings

/-- All of a synth's pool voices share identical settings. -/
@[reducible] def SubtractiveSynth.uniform_settings (s : SubtractiveSynth) : Prop :=
  settings_uniform s.voices.voices

/-- A MIDI event delivered to a voice never changes the voice's
settings: note events touch only frequency, bend, hold flags and the
envelope trigger log. -/
theorem voice_handle_event_settings (m2f : Nat → ℚ)
    (v : SubtractiveSynthVoice) (e : MidiEvent) :
    (v.handle_event m2f e).settings = v.settings := by
  obtain ⟨ch, t, p⟩ := e
  cases p with
  | NoteOn note vel => rfl
  | NoteOff note vel =>
      simp only [SubtractiveSynthVoice.handle_event]
      split <;> rfl
  | SustainPedal b =>
      cases b with
      | true => rfl
      | false =>
          simp only [SubtractiveSynthVoice.handle_event]
          split <;> rfl
  | PitchBend value => rfl
  | ControlChange c val => rfl
  | Other tag => rfl

/-- Every element of `listModify f i l` is an element of `l` or the
image under `f` of one. -/
theorem mem_listModify {α : Type} (f : α → α) :
    ∀ (i : Nat) (l : List α) (y : α), y ∈ listModify f i l →
      y ∈ l ∨ ∃ x ∈ l, y = f x := by
  intro i l
  induction l generalizing i with
  | nil => intro y hy; simp [listModify] at hy
  | cons a as ih =>
    intro y hy
    cases i with
    | zero =>
      rcases List.mem_cons.mp hy with h | h
      · exact Or.inr ⟨a, List.mem_cons_self a as, h⟩
      · exact Or.inl (List.mem_cons_of_mem a h)
    | succ i =>
      rcases List.mem_cons.mp hy with h | h
      · exact Or.inl (h ▸ List.mem_cons_self a as)
      · rcases ih i y h with h' | ⟨x, hx, hfx⟩
        · exact Or.inl (List.mem_cons_of_mem a h')
        · exact Or.inr ⟨x, List.mem_cons_of_mem a hx, hfx⟩

/-- Mapping all voices with a settings-congruent function preserves
uniformity. -/
theorem settings_uniform_map (l : List SubtractiveSynthVoice)
    (g : SubtractiveSynthVoice → SubtractiveSynthVoice)
    (hg : ∀ v w, v.settings = w.settings → (g v).settings = (g w).settings)
    (h : settings_uniform l) : settings_uniform (l.map g) := by
  intro v hv w hw
  rcases List.mem_map.mp hv with ⟨x, hx, rfl⟩
  rcases List.mem_map.mp hw with ⟨y, hy, rfl⟩
  exact hg x y (h x hx y hy)

/-- Modifying one voice with a settings-preserving function preserves
uniformity. -/
theorem settings_uniform_listModify (l : List SubtractiveSynthVoice)
    (i : Nat) (f : SubtractiveSynthVoice → SubtractiveSynthVoice)
    (hf : ∀ v, (f v).settings = v.settings)
    (h : settings_uniform l) : settings_uniform (listModify f i l) := by
  intro v hv w hw
  rcases mem_listModify f i l v hv with hv' | ⟨x, hx, rfl⟩ <;>
    rcases mem_listModify f i l w hw with hw' | ⟨y, hy, rfl⟩
  · exact h v hv' w hw'
  · rw [hf y]; exact h v hv' y hy
  · rw [hf x]; exact h x hx w hw'
  · rw [hf x, hf y]; exact h x hx y hy

/-- `note_on` never changes the voice list itself (only the bindings
and the recency queue). -/
theorem note_on_voices {V : Type} (va : VoiceArray V) (note i : Nat)
    (va' : VoiceArray V) (h : va.note_on note = some (i, va')) :
    va'.voices = va.voices := by
  cases h1 : va.find_held note with
  | some j =>
    simp [VoiceArray.note_on, h1] at h
    rw [← h.2]
  | none =>
    cases h2 : (va.queue.filter (fun i => va.is_free i)).head? with
    | some j =>
      simp [VoiceArray.note_on, h1, h2] at h
      rw [← h.2]
    | none =>
      cases h3 : va.queue.head? with
      | some j =>
        simp [VoiceArray.note_on, h1, h2, h3] at h
        rw [← h.2]
      | none => simp [VoiceArray.note_on, h1, h2, h3] at h

/-- `note_off` never changes the voice list itself. -/
theorem note_off_voices {V : Type} (va : VoiceArray V) (note i : Nat)
    (va' : VoiceArray V) (h : va.note_off note = some (i, va')) :
    va'.voices = va.voices := by
  cases h1 : va.find_held note with
  | some j =>
    simp [VoiceArray.note_off, h1] at h
    rw [← h.2]
  | none => simp [VoiceArray.note_off, h1] at h

/-- Every parameter message preserves settings-uniformity: voice-level
messages fan out to all voices through one loop with the same update,
and the remaining messages touch no voice. -/
theorem uniform_handle_message_core (sem : Sem)
    (he : SubtractiveSynth → MidiEvent → SubtractiveSynth)
    (hhe : ∀ s e, s.uniform_settings → (he s e).uniform_settings)
    (s : SubtractiveSynth) (msg : Message) (h : s.uniform_settings) :
    (SubtractiveSynth.handle_message_core sem he s msg).uniform_settings := by
  cases msg with
  | SendMidiEvent e => exact hhe s e h
  | SetGain g => exact h
  | SetLFOFreq f => exact h
  | SetTremolo i => exact h
  | SetFilterFirstOrder m => exact h
  | SetFilterSecondOrder m => exact h
  | _ =>
    refine settings_uniform_map _ _ ?_ h
    intro v w hvw
    simp only [SubtractiveSynthVoice.settings, Oscillator.handle_message,
      Adsr.handle_message, VoiceSettings.mk.injEq] at hvw ⊢
    obtain ⟨h1, h2, h3, h4, h5, h6, h7, h8, h9, h10⟩ := hvw
    simp [h1, h2, h3, h4, h5, h6, h7, h8, h9, h10]

/-- Every MIDI event preserves settings-uniformity (note events touch
no settings; a mapped ControlChange goes through the uniform parameter
path). -/
theorem uniform_handle_event_core (sem : Sem)
    (hm : SubtractiveSynth → Message → SubtractiveSynth)
    (hhm : ∀ s m, s.uniform_settings → (hm s m).uniform_settings)
    (s : SubtractiveSynth) (e : MidiEvent) (h : s.uniform_settings) :
    (SubtractiveSynth.handle_event_core sem hm s e).uniform_settings := by
  obtain ⟨ch, t, p⟩ := e
  cases p with
  | NoteOn note vel =>
    show SubtractiveSynth.uniform_settings _
    simp only [SubtractiveSynth.handle_event_core]
    cases hno : s.voices.note_on note with
    | none => exact h
    | some iv =>
      obtain ⟨i, va'⟩ := iv
      have hvv := note_on_voices s.voices note i va' hno
      show settings_uniform (listModify _ i va'.voices)
      rw [hvv]
      exact settings_uniform_listModify _ i _
        (fun v => voice_handle_event_settings sem.m2f v _) h
  | NoteOff note vel =>
    show SubtractiveSynth.uniform_settings _
    simp only [SubtractiveSynth.handle_event_core]
    cases hno : s.voices.note_off note with
    | none => exact h
    | some iv =>
      obtain ⟨i, va'⟩ := iv
      have hvv := note_off_voices s.voices note i va' hno
      show settings_uniform (listModify _ i va'.voices)
      rw [hvv]
      exact settings_uniform_listModify _ i _
        (fun v => voice_handle_event_settings sem.m2f v _) h
  | ControlChange c val =>
    cases hc : s.controls with
    | none =>
      simp only [SubtractiveSynth.handle_event_core, hc]
      exact h
    | some f =>
      cases hfc : f c val with
      | none =>
        simp only [SubtractiveSynth.handle_event_core, hc, hfc]
        exact h
      | some m =>
        simp only [SubtractiveSynth.handle_event_core, hc, hfc]
        exact hhm s m h
  | SustainPedal b =>
    refine settings_uniform_map _ _ ?_ h
    intro v w hvw
    rw [voice_handle_event_settings, voice_handle_event_settings]
    exact hvw
  | PitchBend value =>
    refine settings_uniform_map _ _ ?_ h
    intro v w hvw
    rw [voice_handle_event_settings, voice_handle_event_settings]
    exact hvw
  | Other tag =>
    refine settings_uniform_map _ _ ?_ h
    intro v w hvw
    rw [voice_handle_event_settings, voice_handle_event_settings]
    exact hvw

/-- `handle_message` preserves settings-uniformity, for every fuel. -/
theorem uniform_handle_message (sem : Sem) :
    ∀ (fuel : Nat) (s : SubtractiveSynth) (msg : Message),
      s.uniform_settings →
      (SubtractiveSynth.handle_message sem fuel s msg).uniform_settings := by
  intro fuel
  induction fuel with
  | zero =>
    intro s msg h
    exact uniform_handle_message_core sem _ (fun s e hs => hs) s msg h
  | succ n ih =>
    intro s msg h
    exact uniform_handle_message_core sem _
      (fun s e hs => uniform_handle_event_core sem _
        (fun s m hs' => ih s m hs') s e hs) s msg h

/-- `handle_event` preserves settings-uniformity. -/
theorem uniform_handle_event (sem : Sem) (fuel : Nat)
    (s : SubtractiveSynth) (e : MidiEvent) (h : s.uniform_settings) :
    (SubtractiveSynth.handle_event sem fuel s e).uniform_settings :=
  uniform_handle_event_core sem _
    (fun s m hs => uniform_handle_message sem fuel s m hs) s e h

/-- CLAIM C10 — Voice-level parameter messages are applied to all
voices uniformly, so if all voices start with identical settings
(waveforms, transposes, vibrato intensities, ADSR parameters) they still
have identical settings after any sequence of `handle_message` calls;
moreover MIDI note events change only per-voice frequency, bend, hold
flags and envelope triggers, never those settings. -/
theorem parameter_fanout_keeps_voices_uniform (sem : Sem) (fuel : Nat)
    (msgs : List Message) (s : SubtractiveSynth)
    (h : s.uniform_settings) :
    ((msgs.foldl (fun s m => SubtractiveSynth.handle_message sem fuel s m)
        s).uniform_settings) ∧
    (∀ (m2f : Nat → ℚ) (v : SubtractiveSynthVoice) (e : MidiEvent),
      (v.handle_event m2f e).settings = v.settings) := by
  constructor
  · induction msgs generalizing s with
    | nil => exact h
    | cons m ms ih => exact ih _ (uniform_handle_message sem fuel s m h)
  · intro m2f v e
    exact voice_handle_event_settings m2f v e

/-- Witness for `parameter_fanout_keeps_voices_uniform`: a fresh
two-voice synth has uniform settings, and still has them after a
parameter change, a note-on and a vibrato change. -/
theorem parameter_fanout_keeps_voices_uniform_witness :
    (SubtractiveSynth.new 2).uniform_settings ∧
    (([Message.SetAttack 1, Message.SendMidiEvent ⟨0, 0, .NoteOn 60 1⟩,
        Message.SetVibrato 2].foldl
        (fun s m => SubtractiveSynth.handle_message semConst 5 s m)
        (SubtractiveSynth.new 2)).uniform_settings) :=
  ⟨by
    show ∀ v ∈ List.replicate 2 SubtractiveSynthVoice.new,
      ∀ w ∈ List.replicate 2 SubtractiveSynthVoice.new, v.settings = w.settings
    decide,
   (parameter_fanout_keeps_voices_uniform semConst 5 _ _ (by
    show ∀ v ∈ List.replicate 2 SubtractiveSynthVoice.new,
      ∀ w ∈ List.replicate 2 SubtractiveSynthVoice.new, v.settings = w.settings
    decide)).1⟩
